import Mathlib

/-!
Verification development for `combine-mc-stats.py`, a one-file utility that
merges pairs of Minecraft per-player statistics JSON files.

The embedding below follows the source closely:

* JSON documents of shape `{"stats": {cat: {key: int}}, "DataVersion": int}`
  become `StatsDoc`, with Python dicts modelled as insertion-ordered
  association lists (`alGet` / `alSet` mirror `d[k]` lookup and `d[k] = v`
  assignment on a `dict`, which updates in place when the key exists and
  appends at the end otherwise).
* Filenames are lists of characters (`FName`).  `pySplit` mirrors
  `pathlib.PurePath.stem` / `.suffix`: the name is split at the last `'.'`
  provided that dot is neither the first nor the last character.
* The glob patterns `*.json`, `*.1.json`, `*.2.json` used through
  `Path.rglob` match exactly the filenames having the corresponding literal
  suffix, which `hasSuffix` captures.  The discovered file list is taken as
  the (sorted) list of names under the target, so each `rglob`+`sorted`
  result is a `filter` of it.
* `runMain` mirrors `main()` after argument handling: the empty-input check
  (`sys.exit`, status 1), the nested pairing loops with their
  unexpected-name aborts, the per-pair merge, and the incremental output
  writes.  `runProgram` adds the `path.exists()` check of
  `handle_command_line`, whose bare `exit()` terminates with status 0.
-/

/-- Clamping ceiling used by the script: `2_147_483_647`. -/
def CEIL : Int := 2147483647

/-- Lookup in a Python dict modelled as an association list
(first binding wins; a real dict has unique keys). -/
def alGet {α : Type} : List (String × α) → String → Option α
  | [], _ => none
  | (k', v) :: rest, k => if k' = k then some v else alGet rest k

/-- Assignment `d[k] = v` on a Python dict modelled as an association list:
replace the binding in place when the key exists, append at the end
otherwise (dicts are insertion ordered). -/
def alSet {α : Type} : List (String × α) → String → α → List (String × α)
  | [], k, v => [(k, v)]
  | (k', v') :: rest, k, v =>
      if k' = k then (k, v) :: rest else (k', v') :: alSet rest k v

/-- A parsed statistics document `{"stats": ..., "DataVersion": ...}`. -/
structure StatsDoc where
  dataVersion : Int
  stats : List (String × List (String × Int))
deriving DecidableEq, Repr

/-- Per-key saturating write of the script (lines 169-173): after
`output += value`, values `>= 2_147_483_647` are reset to the ceiling. -/
def clampVal (x : Int) : Int := if x ≥ CEIL then CEIL else x

/-- Effect of lines 164-173 on one inner key of one category: initialize the
entry to `0` when absent, add the incoming value, clamp. -/
def addValue (m : List (String × Int)) (k : String) (v : Int) :
    List (String × Int) :=
  alSet m k (clampVal ((alGet m k).getD 0 + v))

/-- Effect of lines 156-173 on one category of the accumulator: create the
category as `{}` when absent, then fold every inner key of the incoming
category into it. -/
def addCategory (s : List (String × List (String × Int))) (cat : String)
    (inner : List (String × Int)) : List (String × List (String × Int)) :=
  alSet s cat (inner.foldl (fun m kv => addValue m kv.1 kv.2)
    ((alGet s cat).getD []))

/-- Effect of one iteration of the `for file in matched_files` loop
(lines 143-173) on the accumulator `output_json`: keep the highest
`DataVersion` (line 149-151), then fold every category of the incoming
document into the accumulated stats. -/
def addDoc (acc d : StatsDoc) : StatsDoc where
  dataVersion := if d.dataVersion > acc.dataVersion then d.dataVersion
                 else acc.dataVersion
  stats := d.stats.foldl (fun s c => addCategory s c.1 c.2) acc.stats

/-- Initial accumulator `{"stats": {}, "DataVersion": 0}` (line 141). -/
def emptyDoc : StatsDoc := ⟨0, []⟩

/-- Merge of one matched pair: the accumulator after folding in first the
generation-1 document and then the generation-2 document. -/
def mergeDocs (a b : StatsDoc) : StatsDoc := addDoc (addDoc emptyDoc a) b

/-- Option-valued nested lookup `stats[cat][k]` (with absent category or key
reported as `none`). -/
def statGet? (s : List (String × List (String × Int))) (cat k : String) :
    Option Int :=
  match alGet s cat with
  | some m => alGet m k
  | none => none

/-- Defaulting nested lookup `d.stats.get(cat, \x7b\x7d).get(k, 0)`. -/
def statGet (d : StatsDoc) (cat k : String) : Int :=
  (statGet? d.stats cat k).getD 0

/-- Whether key `k` of category `cat` is present in the document. -/
def statMem (d : StatsDoc) (cat k : String) : Bool :=
  (statGet? d.stats cat k).isSome

/-- Well-formedness a document parsed from JSON has automatically: a Python
dict cannot bind the same key twice. -/
def wfDoc (d : StatsDoc) : Prop :=
  (d.stats.map Prod.fst).Nodup ∧ ∀ c ∈ d.stats, (c.2.map Prod.fst).Nodup

/-- The spec's value invariant: every leaf value is a non-negative integer
not exceeding the ceiling. -/
def valsOk (d : StatsDoc) : Prop :=
  ∀ c ∈ d.stats, ∀ kv ∈ c.2, 0 ≤ kv.2 ∧ kv.2 ≤ CEIL

instance (d : StatsDoc) : Decidable (wfDoc d) := by
  unfold wfDoc; infer_instance

instance (d : StatsDoc) : Decidable (valsOk d) := by
  unfold valsOk; infer_instance

/-! ## Filenames, `pathlib` stem/suffix, glob discovery -/

/-- A filename, as its list of characters. -/
abbrev FName := List Char

/-- Character list of a string literal. -/
def str (s : String) : FName := s.data

/-- Scan a reversed name for its first `'.'`; returns the characters walked
before it (the reversed extension body) and the remainder. -/
def findDotRev : List Char → Option (List Char × List Char)
  | [] => none
  | c :: rest =>
      if c = '.' then some ([], rest)
      else (findDotRev rest).map (fun pr => (c :: pr.1, pr.2))

/-- Split of `pathlib.PurePath`: `(stem, suffix)`.  The name splits at its
last `'.'` provided that dot is neither the first nor the last character;
otherwise the suffix is empty and the stem is the whole name. -/
def pySplit (n : FName) : FName × FName :=
  match findDotRev n.reverse with
  | some (ext, rest) =>
      if rest = [] ∨ ext = [] then (n, [])
      else (rest.reverse, '.' :: ext.reverse)
  | none => (n, [])

/-- The `.stem` of a filename. -/
def pyStem (n : FName) : FName := (pySplit n).1

/-- The `.suffix` of a filename. -/
def pySuffix (n : FName) : FName := (pySplit n).2

/-- Whether `suf` is a literal suffix of `n`; `Path.rglob` with a pattern
`*X` (no other wildcard) matches exactly the files whose name ends in `X`. -/
def hasSuffix (n suf : FName) : Bool := suf.isSuffixOf n

/-- Matches of the pattern `*.1.json` (line 107). -/
def glob1 (n : FName) : Bool := hasSuffix n (str ".1.json")

/-- Matches of the pattern `*.2.json` (line 108). -/
def glob2 (n : FName) : Bool := hasSuffix n (str ".2.json")

/-- Matches of the pattern `*.json` (line 102). -/
def globJson (n : FName) : Bool := hasSuffix n (str ".json")

/-- UUID extraction of lines 117-124 on success: `stem[:stem.index('.')]`,
the stem's prefix preceding its FIRST dot (`str.index` returns the first
occurrence; the searched character `file.suffix[0]` is `'.'` for every
discovered `.json` file). -/
def uuidOf (n : FName) : FName := (pyStem n).takeWhile (fun c => c ≠ '.')

/-- Fatal conditions of `main()`. -/
inductive MainError where
  /-- Line 104-105: no `.json` file found under the target. -/
  | noInput : MainError
  /-- Lines 119-121 / 129-131: `file.suffix[0] not in file.stem`. -/
  | badName (n : FName) : MainError
  /-- Hypothetical `IndexError` of `file.suffix[0]` on an empty suffix. -/
  | indexErr (n : FName) : MainError
deriving DecidableEq, Repr

/-- Lines 117-124 (and 127-134) for one discovered file: take the first
character of the suffix, abort when it does not occur in the stem, and
otherwise return the stem's prefix before its first occurrence. -/
def parseGenFile (n : FName) : Except MainError FName :=
  match (pySuffix n).head? with
  | none => Except.error (MainError.indexErr n)
  | some c =>
      if c ∈ pyStem n then Except.ok ((pyStem n).takeWhile (fun x => x ≠ c))
      else Except.error (MainError.badName n)

/-- Observable result of the loops of `main()`: output files written (name
and document, in order), number of matches counted, and the fatal error that
aborted the run, if any. -/
structure RunResult where
  writes : List (FName × StatsDoc)
  matchCount : Nat
  error : Option MainError
deriving DecidableEq, Repr

/-- Inner loop of lines 126-180 for a fixed generation-1 file: walk the
generation-2 files, abort on a bad name, and on each UUID match append one
write of the merged pair to `{uuid}.json` and count it. -/
def innerLoop (content : FName → StatsDoc) (f1 : FName) (u : FName) :
    List FName → RunResult
  | [] => ⟨[], 0, none⟩
  | f2 :: rest =>
      match parseGenFile f2 with
      | Except.error e => ⟨[], 0, some e⟩
      | Except.ok u2 =>
          if u = u2 then
            let r := innerLoop content f1 u rest
            ⟨(u ++ str ".json", mergeDocs (content f1) (content f2)) ::
              r.writes, r.matchCount + 1, r.error⟩
          else innerLoop content f1 u rest

/-- Outer loop of lines 114-180: walk the generation-1 files, abort on a bad
name, and otherwise run the inner loop against all generation-2 files. -/
def outerLoop (content : FName → StatsDoc) (f2s : List FName) :
    List FName → RunResult
  | [] => ⟨[], 0, none⟩
  | f1 :: rest =>
      match parseGenFile f1 with
      | Except.error e => ⟨[], 0, some e⟩
      | Except.ok u1 =>
          let r1 := innerLoop content f1 u1 f2s
          match r1.error with
          | some _ => r1
          | none =>
              let r2 := outerLoop content f2s rest
              ⟨r1.writes ++ r2.writes, r1.matchCount + r2.matchCount, r2.error⟩

/-- Body of `main()` after argument handling, as a function of the sorted
list of filenames under the target and of each file's parsed content: exit
with the no-input error when no `.json` file exists (lines 102-105),
otherwise run the pairing loops over the `*.1.json` and `*.2.json`
matches (sorted sublists, hence `filter`s, of the sorted file list). -/
def runMain (files : List FName) (content : FName → StatsDoc) : RunResult :=
  if (files.filter globJson).length = 0 then ⟨[], 0, some MainError.noInput⟩
  else outerLoop content (files.filter glob2) (files.filter glob1)

/-- Errors reported by the whole program. -/
inductive ProgError where
  /-- Line 74-76: the supplied path does not exist. -/
  | pathNotFound : ProgError
  /-- A fatal error inside `main()`. -/
  | fromMain (e : MainError) : ProgError
deriving DecidableEq, Repr

/-- Observable outcome of one program run: the process exit status, the
error message reported (if any), the output files written, whether the
directory scan was reached, and the match count printed on normal
completion (line 182). -/
structure ProgOutcome where
  exitCode : Nat
  error : Option ProgError
  writes : List (FName × StatsDoc)
  scanned : Bool
  matchesReported : Option Nat
deriving DecidableEq, Repr

/-- The whole program: `handle_command_line` terminates with a bare
`exit()` — process status 0 — when the path does not exist, before any
scan; a `sys.exit(message)` inside `main()` terminates with status 1;
a completed run exits normally with status 0 and reports the match count. -/
def runProgram (pathExists : Bool) (files : List FName)
    (content : FName → StatsDoc) : ProgOutcome :=
  if pathExists = false then ⟨0, some ProgError.pathNotFound, [], false, none⟩
  else
    let r := runMain files content
    match r.error with
    | some e => ⟨1, some (ProgError.fromMain e), r.writes, true, none⟩
    | none => ⟨0, none, r.writes, true, some r.matchCount⟩

/-- A filesystem abstracted as content per filename; applying the run's
writes performs each `open(..., "w")` in order, unconditionally replacing
whatever the name held before.  Nothing is ever deleted. -/
def applyWrites (fs : FName → Option StatsDoc)
    (ws : List (FName × StatsDoc)) : FName → Option StatsDoc :=
  ws.foldl (fun f w => fun n => if n = w.1 then some w.2 else f n) fs

/-- The writes the pairing loops perform, declaratively: one per matched
pair, i.e. per generation-1 file and generation-2 file whose extracted
UUIDs coincide, named `{uuid}.json` and holding the merged documents. -/
def expectedWrites (files : List FName) (content : FName → StatsDoc) :
    List (FName × StatsDoc) :=
  ((files.filter glob1).map (fun f1 =>
    (((files.filter glob2).filter
        (fun f2 => decide (uuidOf f1 = uuidOf f2))).map
      (fun f2 => (uuidOf f1 ++ str ".json",
        mergeDocs (content f1) (content f2)))))).flatten

/-! ## Association-list lemmas -/

theorem alGet_alSet {α : Type} (m : List (String × α)) (k : String) (v : α)
    (k' : String) :
    alGet (alSet m k v) k' = if k' = k then some v else alGet m k' := by
  induction m with
  | nil => by_cases h : k' = k <;> simp [alSet, alGet, h, Ne.symm]
  | cons p rest ih =>
      obtain ⟨k1, v1⟩ := p
      by_cases h1 : k1 = k
      · subst h1
        by_cases h2 : k' = k1 <;> simp [alSet, alGet, h2, Ne.symm]
      · by_cases h2 : k1 = k'
        · subst h2
          simp [alSet, alGet, h1, Ne.symm h1]
        · simp [alSet, alGet, h1, h2, ih]

theorem alGet_eq_none_iff {α : Type} (m : List (String × α)) (k : String) :
    alGet m k = none ↔ k ∉ m.map Prod.fst := by
  induction m with
  | nil => simp [alGet]
  | cons p rest ih =>
      obtain ⟨k1, v1⟩ := p
      by_cases h : k1 = k <;> simp [alGet, h, ih, Ne.symm]

theorem alGet_isSome_iff {α : Type} (m : List (String × α)) (k : String) :
    (alGet m k).isSome ↔ k ∈ m.map Prod.fst := by
  induction m with
  | nil => simp [alGet]
  | cons p rest ih =>
      obtain ⟨k1, v1⟩ := p
      by_cases h : k1 = k <;> simp [alGet, h, ih, Ne.symm]

theorem alGet_mem {α : Type} {m : List (String × α)} {k : String} {v : α}
    (h : alGet m k = some v) : (k, v) ∈ m := by
  induction m with
  | nil => simp [alGet] at h
  | cons p rest ih =>
      obtain ⟨k1, v1⟩ := p
      by_cases h1 : k1 = k
      · subst h1
        simp [alGet] at h
        simp [h]
      · simp [alGet, h1] at h
        exact List.mem_cons_of_mem _ (ih h)

/-! ## Pointwise behaviour of the merge accumulator -/

theorem alGet_addValue (m : List (String × Int)) (k : String) (v : Int)
    (k' : String) :
    alGet (addValue m k v) k' =
      if k' = k then some (clampVal ((alGet m k).getD 0 + v))
      else alGet m k' := by
  simp [addValue, alGet_alSet]

theorem alGet_foldVals_notmem (l : List (String × Int))
    (base : List (String × Int)) (k : String) (h : k ∉ l.map Prod.fst) :
    alGet (l.foldl (fun m kv => addValue m kv.1 kv.2) base) k =
      alGet base k := by
  induction l generalizing base with
  | nil => rfl
  | cons p t ih =>
      obtain ⟨k1, v1⟩ := p
      simp only [List.map_cons, List.mem_cons] at h
      push_neg at h
      rw [List.foldl_cons, ih _ h.2, alGet_addValue]
      simp [h.1]

theorem alGet_foldVals_mem (l : List (String × Int))
    (base : List (String × Int)) (k : String) (v : Int)
    (hnd : (l.map Prod.fst).Nodup) (hm : (k, v) ∈ l) :
    alGet (l.foldl (fun m kv => addValue m kv.1 kv.2) base) k =
      some (clampVal ((alGet base k).getD 0 + v)) := by
  induction l generalizing base with
  | nil => simp at hm
  | cons p t ih =>
      obtain ⟨k1, v1⟩ := p
      simp only [List.map_cons, List.nodup_cons] at hnd
      rw [List.foldl_cons]
      rcases List.mem_cons.mp hm with heq | hmem
      · injection heq with hk hv
        subst hk; subst hv
        have hk : k ∉ t.map Prod.fst := hnd.1
        rw [alGet_foldVals_notmem _ _ _ hk, alGet_addValue]
        simp
      · have hkne : k1 ≠ k := by
          intro heq1
          subst heq1
          exact hnd.1 (List.mem_map.mpr ⟨(k1, v), hmem, rfl⟩)
        rw [ih _ hnd.2 hmem, alGet_addValue]
        simp [hkne, Ne.symm hkne]

theorem alGet_addCategory (s : List (String × List (String × Int)))
    (cat : String) (inner : List (String × Int)) (cat' : String) :
    alGet (addCategory s cat inner) cat' =
      if cat' = cat then
        some (inner.foldl (fun m kv => addValue m kv.1 kv.2)
          ((alGet s cat).getD []))
      else alGet s cat' := by
  simp [addCategory, alGet_alSet]

theorem alGet_foldCats_notmem (d : List (String × List (String × Int)))
    (base : List (String × List (String × Int))) (cat : String)
    (h : cat ∉ d.map Prod.fst) :
    alGet (d.foldl (fun s c => addCategory s c.1 c.2) base) cat =
      alGet base cat := by
  induction d generalizing base with
  | nil => rfl
  | cons p t ih =>
      obtain ⟨c1, i1⟩ := p
      simp only [List.map_cons, List.mem_cons] at h
      push_neg at h
      rw [List.foldl_cons, ih _ h.2, alGet_addCategory]
      simp [h.1]

theorem alGet_foldCats_mem (d : List (String × List (String × Int)))
    (base : List (String × List (String × Int))) (cat : String)
    (inner : List (String × Int)) (hnd : (d.map Prod.fst).Nodup)
    (hm : (cat, inner) ∈ d) :
    alGet (d.foldl (fun s c => addCategory s c.1 c.2) base) cat =
      some (inner.foldl (fun m kv => addValue m kv.1 kv.2)
        ((alGet base cat).getD [])) := by
  induction d generalizing base with
  | nil => simp at hm
  | cons p t ih =>
      obtain ⟨c1, i1⟩ := p
      simp only [List.map_cons, List.nodup_cons] at hnd
      rw [List.foldl_cons]
      rcases List.mem_cons.mp hm with heq | hmem
      · injection heq with hc hi
        subst hc; subst hi
        have hc : cat ∉ t.map Prod.fst := hnd.1
        rw [alGet_foldCats_notmem _ _ _ hc, alGet_addCategory]
        simp
      · have hcne : c1 ≠ cat := by
          intro heq1
          subst heq1
          exact hnd.1 (List.mem_map.mpr ⟨(c1, inner), hmem, rfl⟩)
        rw [ih _ hnd.2 hmem, alGet_addCategory]
        simp [hcne, Ne.symm hcne]

theorem isSome_foldCats (d : List (String × List (String × Int)))
    (base : List (String × List (String × Int))) (cat : String) :
    (alGet (d.foldl (fun s c => addCategory s c.1 c.2) base) cat).isSome
      ↔ ((alGet base cat).isSome ∨ cat ∈ d.map Prod.fst) := by
  induction d generalizing base with
  | nil => simp
  | cons p t ih =>
      obtain ⟨c1, i1⟩ := p
      rw [List.foldl_cons, ih]
      by_cases h : cat = c1 <;>
        simp [alGet_addCategory, h, Ne.symm, or_assoc, or_comm, or_left_comm]

theorem statGet?_some_eq (s : List (String × List (String × Int)))
    (cat k : String) (m : List (String × Int)) (h : alGet s cat = some m) :
    statGet? s cat k = alGet m k := by
  unfold statGet?
  rw [h]

theorem statGet?_none_eq (s : List (String × List (String × Int)))
    (cat k : String) (h : alGet s cat = none) : statGet? s cat k = none := by
  unfold statGet?
  rw [h]

theorem statGet?_addDoc_none (acc d : StatsDoc) (hwf : wfDoc d)
    (cat k : String) (h : statGet? d.stats cat k = none) :
    statGet? (addDoc acc d).stats cat k = statGet? acc.stats cat k := by
  have hs : (addDoc acc d).stats
      = d.stats.foldl (fun s c => addCategory s c.1 c.2) acc.stats := rfl
  cases hc : alGet d.stats cat with
  | none =>
      have h1 : alGet (addDoc acc d).stats cat = alGet acc.stats cat := by
        rw [hs]
        exact alGet_foldCats_notmem _ _ _ ((alGet_eq_none_iff _ _).mp hc)
      unfold statGet?
      rw [h1]
  | some inner =>
      have hik : alGet inner k = none := by
        rw [statGet?_some_eq d.stats cat k inner hc] at h
        exact h
      have h1 : alGet (addDoc acc d).stats cat
          = some (inner.foldl (fun m kv => addValue m kv.1 kv.2)
              ((alGet acc.stats cat).getD [])) := by
        rw [hs]
        exact alGet_foldCats_mem _ _ _ _ hwf.1 (alGet_mem hc)
      rw [statGet?_some_eq _ _ _ _ h1,
        alGet_foldVals_notmem _ _ _ ((alGet_eq_none_iff _ _).mp hik)]
      unfold statGet?
      cases hac : alGet acc.stats cat with
      | none => simp [alGet]
      | some m => simp

theorem statGet?_addDoc_some (acc d : StatsDoc) (hwf : wfDoc d)
    (cat k : String) (v : Int) (h : statGet? d.stats cat k = some v) :
    statGet? (addDoc acc d).stats cat k =
      some (clampVal ((statGet? acc.stats cat k).getD 0 + v)) := by
  have hs : (addDoc acc d).stats
      = d.stats.foldl (fun s c => addCategory s c.1 c.2) acc.stats := rfl
  cases hc : alGet d.stats cat with
  | none =>
      rw [statGet?_none_eq d.stats cat k hc] at h
      cases h
  | some inner =>
      have hik : alGet inner k = some v := by
        rw [statGet?_some_eq d.stats cat k inner hc] at h
        exact h
      have h1 : alGet (addDoc acc d).stats cat
          = some (inner.foldl (fun m kv => addValue m kv.1 kv.2)
              ((alGet acc.stats cat).getD [])) := by
        rw [hs]
        exact alGet_foldCats_mem _ _ _ _ hwf.1 (alGet_mem hc)
      rw [statGet?_some_eq _ _ _ _ h1,
        alGet_foldVals_mem _ _ _ _ (hwf.2 _ (alGet_mem hc)) (alGet_mem hik)]
      unfold statGet?
      cases hac : alGet acc.stats cat with
      | none => simp [alGet]
      | some m => simp

theorem statGet?_catSome_addDoc (acc d : StatsDoc) (cat : String) :
    (alGet (addDoc acc d).stats cat).isSome
      ↔ ((alGet acc.stats cat).isSome ∨ (alGet d.stats cat).isSome) := by
  show (alGet (d.stats.foldl (fun s c => addCategory s c.1 c.2) acc.stats)
    cat).isSome ↔ _
  rw [isSome_foldCats, alGet_isSome_iff d.stats]

theorem clampVal_eq_min (x : Int) : clampVal x = min CEIL x := by
  simp only [clampVal, min_def, ge_iff_le]

theorem clampVal_of_le {x : Int} (h : x ≤ CEIL) : clampVal x = x := by
  simp only [clampVal, ge_iff_le]
  split <;> omega

theorem statGet?_bounds {d : StatsDoc} (hv : valsOk d) {cat k : String}
    {v : Int} (h : statGet? d.stats cat k = some v) : 0 ≤ v ∧ v ≤ CEIL := by
  unfold statGet? at h
  cases hc : alGet d.stats cat with
  | none => rw [hc] at h; cases h
  | some m =>
      rw [hc] at h
      exact hv _ (alGet_mem hc) _ (alGet_mem h)

theorem statGet?_addDoc_empty (a : StatsDoc) (hwf : wfDoc a) (hv : valsOk a)
    (cat k : String) :
    statGet? (addDoc emptyDoc a).stats cat k = statGet? a.stats cat k := by
  cases h : statGet? a.stats cat k with
  | none =>
      rw [statGet?_addDoc_none emptyDoc a hwf cat k h]
      rfl
  | some v =>
      rw [statGet?_addDoc_some emptyDoc a hwf cat k v h]
      have hb := statGet?_bounds hv h
      have : statGet? emptyDoc.stats cat k = none := rfl
      rw [this]
      simp [clampVal_of_le hb.2]

/-! ## Filename parsing lemmas -/

theorem hasSuffix_iff (n suf : FName) :
    hasSuffix n suf = true ↔ ∃ p, n = p ++ suf := by
  unfold hasSuffix
  rw [List.isSuffixOf_iff_suffix]
  constructor
  · rintro ⟨t, ht⟩
    exact ⟨t, ht.symm⟩
  · rintro ⟨p, hp⟩
    exact ⟨p, hp.symm⟩

theorem findDotRev_append (l r : List Char) (hl : '.' ∉ l) :
    findDotRev (l ++ '.' :: r) = some (l, r) := by
  induction l with
  | nil => simp [findDotRev]
  | cons c t ih =>
      simp only [List.mem_cons] at hl
      push_neg at hl
      simp [findDotRev, Ne.symm hl.1, ih hl.2]

theorem pySplit_gen (p : FName) (d : Char) :
    pySplit (p ++ '.' :: d :: str ".json") = (p ++ ['.', d], str ".json") := by
  have hjson : str ".json" = ['.', 'j', 's', 'o', 'n'] := rfl
  have hrev : (p ++ '.' :: d :: str ".json").reverse
      = ['n', 'o', 's', 'j'] ++ '.' :: (d :: '.' :: p.reverse) := by
    rw [hjson]
    simp
  unfold pySplit
  rw [hrev, findDotRev_append _ _ (by decide)]
  simp [hjson]

theorem stem_of_glob1 {n : FName} (h : glob1 n = true) :
    ∃ p, n = p ++ str ".1.json" ∧ pyStem n = p ++ str ".1"
      ∧ pySuffix n = str ".json" := by
  obtain ⟨p, hp⟩ := (hasSuffix_iff n (str ".1.json")).mp h
  refine ⟨p, hp, ?_, ?_⟩
  · have : str ".1.json" = '.' :: '1' :: str ".json" := rfl
    rw [hp, this]
    unfold pyStem
    rw [pySplit_gen p '1']
    rfl
  · have : str ".1.json" = '.' :: '1' :: str ".json" := rfl
    rw [hp, this]
    unfold pySuffix
    rw [pySplit_gen p '1']

theorem stem_of_glob2 {n : FName} (h : glob2 n = true) :
    ∃ p, n = p ++ str ".2.json" ∧ pyStem n = p ++ str ".2"
      ∧ pySuffix n = str ".json" := by
  obtain ⟨p, hp⟩ := (hasSuffix_iff n (str ".2.json")).mp h
  refine ⟨p, hp, ?_, ?_⟩
  · have : str ".2.json" = '.' :: '2' :: str ".json" := rfl
    rw [hp, this]
    unfold pyStem
    rw [pySplit_gen p '2']
    rfl
  · have : str ".2.json" = '.' :: '2' :: str ".json" := rfl
    rw [hp, this]
    unfold pySuffix
    rw [pySplit_gen p '2']

theorem parseGenFile_of_split {n p : FName} {d : Char}
    (hstem : pyStem n = p ++ ['.', d]) (hsuf : pySuffix n = str ".json") :
    parseGenFile n = Except.ok (uuidOf n) := by
  have hhead : (pySuffix n).head? = some '.' := by
    rw [hsuf]
    rfl
  have hm : '.' ∈ pyStem n := by
    rw [hstem]
    exact List.mem_append.mpr (Or.inr (List.mem_cons_self _ _))
  unfold parseGenFile
  rw [hhead]
  show (if '.' ∈ pyStem n then
      Except.ok ((pyStem n).takeWhile (fun x => x ≠ '.'))
    else Except.error (MainError.badName n)) = Except.ok (uuidOf n)
  rw [if_pos hm]
  rfl

theorem parseGenFile_gen {n : FName}
    (h : glob1 n = true ∨ glob2 n = true) :
    parseGenFile n = Except.ok (uuidOf n) := by
  rcases h with h1 | h2
  · obtain ⟨p, _, hstem, hsuf⟩ := stem_of_glob1 h1
    exact parseGenFile_of_split hstem hsuf
  · obtain ⟨p, _, hstem, hsuf⟩ := stem_of_glob2 h2
    exact parseGenFile_of_split hstem hsuf

theorem uuid_no_dot (n : FName) : '.' ∉ uuidOf n := by
  intro hmem
  have := List.mem_takeWhile_imp hmem
  simp at this

theorem glob1_globJson {n : FName} (h : glob1 n = true) :
    globJson n = true := by
  obtain ⟨p, hp⟩ := (hasSuffix_iff n (str ".1.json")).mp h
  refine (hasSuffix_iff n (str ".json")).mpr ⟨p ++ ['.', '1'], ?_⟩
  rw [hp]
  simp [str]

theorem glob2_globJson {n : FName} (h : glob2 n = true) :
    globJson n = true := by
  obtain ⟨p, hp⟩ := (hasSuffix_iff n (str ".2.json")).mp h
  refine (hasSuffix_iff n (str ".json")).mpr ⟨p ++ ['.', '2'], ?_⟩
  rw [hp]
  simp [str]

theorem target_not_glob1 {u : FName} (h : '.' ∉ u) :
    glob1 (u ++ str ".json") = false := by
  by_contra hg
  obtain ⟨p, hp⟩ := (hasSuffix_iff _ (str ".1.json")).mp
    (Bool.not_eq_false _ |>.mp hg)
  have hp' : u ++ str ".json" = (p ++ ['.', '1']) ++ str ".json" := by
    rw [hp]
    simp [str]
  have := List.append_cancel_right hp'
  exact h (by rw [this]; simp)

theorem target_not_glob2 {u : FName} (h : '.' ∉ u) :
    glob2 (u ++ str ".json") = false := by
  by_contra hg
  obtain ⟨p, hp⟩ := (hasSuffix_iff _ (str ".2.json")).mp
    (Bool.not_eq_false _ |>.mp hg)
  have hp' : u ++ str ".json" = (p ++ ['.', '2']) ++ str ".json" := by
    rw [hp]
    simp [str]
  have := List.append_cancel_right hp'
  exact h (by rw [this]; simp)

/-! ## Loop characterization -/

theorem innerLoop_ok (content : FName → StatsDoc) (f1 u : FName)
    (f2s : List FName)
    (h : ∀ f2 ∈ f2s, parseGenFile f2 = Except.ok (uuidOf f2)) :
    innerLoop content f1 u f2s =
      ⟨(f2s.filter (fun f2 => decide (u = uuidOf f2))).map
          (fun f2 => (u ++ str ".json", mergeDocs (content f1) (content f2))),
        (f2s.filter (fun f2 => decide (u = uuidOf f2))).length, none⟩ := by
  induction f2s with
  | nil => rfl
  | cons f2 rest ih =>
      have hf2 := h f2 (List.mem_cons_self _ _)
      have hrest : ∀ x ∈ rest, parseGenFile x = Except.ok (uuidOf x) :=
        fun x hx => h x (List.mem_cons_of_mem _ hx)
      unfold innerLoop
      rw [hf2]
      by_cases hu : u = uuidOf f2
      · subst hu
        simp [List.filter_cons, ih hrest]
      · simp [List.filter_cons, hu, ih hrest]

theorem outerLoop_ok (content : FName → StatsDoc) (f2s f1s : List FName)
    (h1 : ∀ f1 ∈ f1s, parseGenFile f1 = Except.ok (uuidOf f1))
    (h2 : ∀ f2 ∈ f2s, parseGenFile f2 = Except.ok (uuidOf f2)) :
    outerLoop content f2s f1s =
      ⟨(f1s.map (fun f1 =>
          ((f2s.filter (fun f2 => decide (uuidOf f1 = uuidOf f2))).map
            (fun f2 => (uuidOf f1 ++ str ".json",
              mergeDocs (content f1) (content f2)))))).flatten,
        (f1s.map (fun f1 =>
          (f2s.filter (fun f2 =>
            decide (uuidOf f1 = uuidOf f2))).length)).sum, none⟩ := by
  induction f1s with
  | nil => rfl
  | cons f1 rest ih =>
      have hrest : ∀ x ∈ rest, parseGenFile x = Except.ok (uuidOf x) :=
        fun x hx => h1 x (List.mem_cons_of_mem _ hx)
      unfold outerLoop
      rw [h1 f1 (List.mem_cons_self _ _)]
      simp [innerLoop_ok content f1 (uuidOf f1) f2s h2, ih hrest]

/-- Total number of matches counted by a completed run, declaratively. -/
def matchTotal (files : List FName) : Nat :=
  ((files.filter glob1).map (fun f1 =>
    ((files.filter glob2).filter (fun f2 =>
      decide (uuidOf f1 = uuidOf f2))).length)).sum

theorem runMain_eq_ok (files : List FName) (content : FName → StatsDoc)
    (hjson : (files.filter globJson).length ≠ 0) :
    runMain files content
      = ⟨expectedWrites files content, matchTotal files, none⟩ := by
  unfold runMain
  rw [if_neg hjson]
  exact outerLoop_ok content (files.filter glob2) (files.filter glob1)
    (fun f1 hf1 => parseGenFile_gen (Or.inl (List.mem_filter.mp hf1).2))
    (fun f2 hf2 => parseGenFile_gen (Or.inr (List.mem_filter.mp hf2).2))

theorem expectedWrites_of_noJson (files : List FName)
    (content : FName → StatsDoc) (h : (files.filter globJson).length = 0) :
    expectedWrites files content = [] := by
  have hnil : files.filter globJson = [] := List.length_eq_zero.mp h
  have h1 : files.filter glob1 = [] := by
    rw [List.filter_eq_nil_iff]
    intro a ha hga
    have hj : globJson a = true := glob1_globJson hga
    have := List.filter_eq_nil_iff.mp hnil a ha
    simp_all
  unfold expectedWrites
  rw [h1]
  rfl

theorem runProgram_writes (files : List FName) (content : FName → StatsDoc) :
    (runProgram true files content).writes = expectedWrites files content := by
  by_cases hjson : (files.filter globJson).length = 0
  · have hm : runMain files content = ⟨[], 0, some MainError.noInput⟩ := by
      unfold runMain
      rw [if_pos hjson]
    unfold runProgram
    rw [expectedWrites_of_noJson files content hjson]
    simp [hm]
  · unfold runProgram
    simp [runMain_eq_ok files content hjson]

theorem runProgram_complete (files : List FName) (content : FName → StatsDoc)
    (hjson : (files.filter globJson).length ≠ 0) :
    runProgram true files content
      = ⟨0, none, expectedWrites files content, true,
          some (matchTotal files)⟩ := by
  unfold runProgram
  simp [runMain_eq_ok files content hjson]

theorem applyWrites_notmem (fs : FName → Option StatsDoc)
    (ws : List (FName × StatsDoc)) (n : FName)
    (h : ∀ w ∈ ws, w.1 ≠ n) : applyWrites fs ws n = fs n := by
  induction ws generalizing fs with
  | nil => rfl
  | cons w t ih =>
      have hw := h w (List.mem_cons_self _ _)
      have ht : ∀ x ∈ t, x.1 ≠ n :=
        fun x hx => h x (List.mem_cons_of_mem _ hx)
      show applyWrites (fun n1 => if n1 = w.1 then some w.2 else fs n1) t n = _
      rw [ih _ ht]
      simp [Ne.symm hw]

theorem mem_expectedWrites {files : List FName} {content : FName → StatsDoc}
    {w : FName × StatsDoc} (hw : w ∈ expectedWrites files content) :
    ∃ g1 g2, g1 ∈ files.filter glob1 ∧ g2 ∈ files.filter glob2 ∧
      uuidOf g1 = uuidOf g2 ∧
      w = (uuidOf g1 ++ str ".json", mergeDocs (content g1) (content g2)) := by
  unfold expectedWrites at hw
  obtain ⟨l, hl, hwl⟩ := List.mem_flatten.mp hw
  obtain ⟨g1, hg1, rfl⟩ := List.mem_map.mp hl
  obtain ⟨g2, hg2, rfl⟩ := List.mem_map.mp hwl
  exact ⟨g1, g2, hg1, (List.mem_filter.mp hg2).1,
    of_decide_eq_true (List.mem_filter.mp hg2).2, rfl⟩

/-- C1: for every pair of valid StatsDocuments A and B (every leaf value a
non-negative integer not exceeding 2,147,483,647) and every category and
item key present in A or B (or both), the merged document satisfies
`merge(A,B).stats[cat][k] = min(2147483647,
A.stats.get(cat,\x7b\x7d).get(k,0) + B.stats.get(cat,\x7b\x7d).get(k,0))`:
absent categories/keys default to 0 and the per-key result is a saturating
sum clamped at the ceiling. -/
theorem merge_value_saturating_sum (a b : StatsDoc)
    (hwa : wfDoc a) (hva : valsOk a) (hwb : wfDoc b) (hvb : valsOk b)
    (cat k : String)
    (hpres : statMem a cat k = true ∨ statMem b cat k = true) :
    statGet (mergeDocs a b) cat k
      = min CEIL (statGet a cat k + statGet b cat k) := by
  unfold mergeDocs statGet
  cases hb : statGet? b.stats cat k with
  | some w =>
      rw [statGet?_addDoc_some _ b hwb cat k w hb,
        statGet?_addDoc_empty a hwa hva cat k]
      simp [clampVal_eq_min]
  | none =>
      rw [statGet?_addDoc_none _ b hwb cat k hb,
        statGet?_addDoc_empty a hwa hva cat k]
      have hsa : (statGet? a.stats cat k).getD 0 ≤ CEIL := by
        cases ha : statGet? a.stats cat k with
        | none => simp [CEIL]
        | some v => simpa using (statGet?_bounds hva ha).2
      simp only [Option.getD_none, add_zero]
      exact (min_eq_right hsa).symm

theorem merge_value_saturating_sum_witness :
    statGet (mergeDocs ⟨100, [("custom", [("jump", 5)])]⟩
        ⟨200, [("custom", [("jump", 10)])]⟩) "custom" "jump"
      = min CEIL
          (statGet (⟨100, [("custom", [("jump", 5)])]⟩ : StatsDoc)
              "custom" "jump"
            + statGet (⟨200, [("custom", [("jump", 10)])]⟩ : StatsDoc)
              "custom" "jump") :=
  merge_value_saturating_sum
    ⟨100, [("custom", [("jump", 5)])]⟩ ⟨200, [("custom", [("jump", 10)])]⟩
    (by decide) (by decide) (by decide) (by decide) "custom" "jump"
    (Or.inl (by decide))

/-- C2: for every pair of StatsDocuments with non-negative `dataVersion`,
the merged document's version marker is the maximum of the two inputs'
version markers. -/
theorem merge_dataVersion_max (a b : StatsDoc)
    (ha : 0 ≤ a.dataVersion) (hb : 0 ≤ b.dataVersion) :
    (mergeDocs a b).dataVersion = max a.dataVersion b.dataVersion := by
  have h1 : (mergeDocs a b).dataVersion =
      if b.dataVersion > (if a.dataVersion > (0 : Int) then a.dataVersion
        else 0) then b.dataVersion
      else (if a.dataVersion > (0 : Int) then a.dataVersion else 0) := rfl
  rw [h1, max_def]
  split_ifs <;> omega

theorem merge_dataVersion_max_witness :
    (mergeDocs ⟨100, []⟩ ⟨200, []⟩).dataVersion
      = max (100 : Int) 200 :=
  merge_dataVersion_max ⟨100, []⟩ ⟨200, []⟩ (by decide) (by decide)

/-- C7: merge is commutative on valid documents — the two orders agree on
the version marker and the stats mappings are extensionally equal (same
categories present, and every nested lookup returns the same result,
present or absent alike). -/
theorem merge_commutative (a b : StatsDoc)
    (hwa : wfDoc a) (hva : valsOk a) (hwb : wfDoc b) (hvb : valsOk b) :
    (mergeDocs a b).dataVersion = (mergeDocs b a).dataVersion ∧
    (∀ cat, (alGet (mergeDocs a b).stats cat).isSome
        = (alGet (mergeDocs b a).stats cat).isSome) ∧
    (∀ cat k, statGet? (mergeDocs a b).stats cat k
        = statGet? (mergeDocs b a).stats cat k) := by
  have boolExt : ∀ x y : Bool, (x = true ↔ y = true) → x = y := by
    intro x y h
    cases x <;> cases y <;> simp_all
  refine ⟨?_, ?_, ?_⟩
  · have h1 : (mergeDocs a b).dataVersion =
        if b.dataVersion > (if a.dataVersion > (0 : Int) then a.dataVersion
          else 0) then b.dataVersion
        else (if a.dataVersion > (0 : Int) then a.dataVersion else 0) := rfl
    have h2 : (mergeDocs b a).dataVersion =
        if a.dataVersion > (if b.dataVersion > (0 : Int) then b.dataVersion
          else 0) then a.dataVersion
        else (if b.dataVersion > (0 : Int) then b.dataVersion else 0) := rfl
    rw [h1, h2]
    split_ifs <;> omega
  · intro cat
    apply boolExt
    have he : (alGet emptyDoc.stats cat).isSome = false := rfl
    have h1 := statGet?_catSome_addDoc (addDoc emptyDoc a) b cat
    have h2 := statGet?_catSome_addDoc emptyDoc a cat
    have h3 := statGet?_catSome_addDoc (addDoc emptyDoc b) a cat
    have h4 := statGet?_catSome_addDoc emptyDoc b cat
    unfold mergeDocs
    rw [h1, h2, h3, h4, he]
    simp [or_comm]
  · intro cat k
    unfold mergeDocs
    cases ha : statGet? a.stats cat k with
    | none =>
        cases hb : statGet? b.stats cat k with
        | none =>
            rw [statGet?_addDoc_none _ b hwb cat k hb,
              statGet?_addDoc_empty a hwa hva cat k, ha,
              statGet?_addDoc_none _ a hwa cat k ha,
              statGet?_addDoc_empty b hwb hvb cat k, hb]
        | some w =>
            rw [statGet?_addDoc_some _ b hwb cat k w hb,
              statGet?_addDoc_empty a hwa hva cat k, ha,
              statGet?_addDoc_none _ a hwa cat k ha,
              statGet?_addDoc_empty b hwb hvb cat k, hb]
            simp [clampVal_of_le (statGet?_bounds hvb hb).2]
    | some v =>
        cases hb : statGet? b.stats cat k with
        | none =>
            rw [statGet?_addDoc_none _ b hwb cat k hb,
              statGet?_addDoc_empty a hwa hva cat k, ha,
              statGet?_addDoc_some _ a hwa cat k v ha,
              statGet?_addDoc_empty b hwb hvb cat k, hb]
            simp [clampVal_of_le (statGet?_bounds hva ha).2]
        | some w =>
            rw [statGet?_addDoc_some _ b hwb cat k w hb,
              statGet?_addDoc_empty a hwa hva cat k, ha,
              statGet?_addDoc_some _ a hwa cat k v ha,
              statGet?_addDoc_empty b hwb hvb cat k, hb]
            simp [add_comm]

theorem merge_commutative_witness :
    (mergeDocs ⟨100, [("custom", [("jump", 5)])]⟩
        ⟨200, [("mined", [("stone", 10)])]⟩).dataVersion
      = (mergeDocs ⟨200, [("mined", [("stone", 10)])]⟩
          ⟨100, [("custom", [("jump", 5)])]⟩).dataVersion ∧
    (∀ cat, (alGet (mergeDocs ⟨100, [("custom", [("jump", 5)])]⟩
          ⟨200, [("mined", [("stone", 10)])]⟩).stats cat).isSome
        = (alGet (mergeDocs ⟨200, [("mined", [("stone", 10)])]⟩
            ⟨100, [("custom", [("jump", 5)])]⟩).stats cat).isSome) ∧
    (∀ cat k, statGet? (mergeDocs ⟨100, [("custom", [("jump", 5)])]⟩
          ⟨200, [("mined", [("stone", 10)])]⟩).stats cat k
        = statGet? (mergeDocs ⟨200, [("mined", [("stone", 10)])]⟩
            ⟨100, [("custom", [("jump", 5)])]⟩).stats cat k) :=
  merge_commutative ⟨100, [("custom", [("jump", 5)])]⟩
    ⟨200, [("mined", [("stone", 10)])]⟩
    (by decide) (by decide) (by decide) (by decide)

/-! ## Claim theorems about the program run -/

/-- C10: the malformed-filename abort branch is unreachable — every file
matched by the glob `*.1.json` (resp. `*.2.json`) has a stem ending in
`.1` (resp. `.2`), hence containing the `'.'` character that the
`suffix[0] not in stem` check looks for, so no run ever terminates with
the unexpected-name error. -/
theorem malformed_branch_unreachable :
    (∀ n : FName, glob1 n = true →
      hasSuffix (pyStem n) (str ".1") = true ∧ '.' ∈ pyStem n) ∧
    (∀ n : FName, glob2 n = true →
      hasSuffix (pyStem n) (str ".2") = true ∧ '.' ∈ pyStem n) ∧
    (∀ (pe : Bool) (files : List FName) (content : FName → StatsDoc)
      (m : FName), (runProgram pe files content).error
        ≠ some (ProgError.fromMain (MainError.badName m))) := by
  refine ⟨?_, ?_, ?_⟩
  · intro n h
    obtain ⟨p, _, hstem, _⟩ := stem_of_glob1 h
    refine ⟨(hasSuffix_iff _ _).mpr ⟨p, hstem⟩, ?_⟩
    rw [hstem]
    exact List.mem_append.mpr (Or.inr (by decide))
  · intro n h
    obtain ⟨p, _, hstem, _⟩ := stem_of_glob2 h
    refine ⟨(hasSuffix_iff _ _).mpr ⟨p, hstem⟩, ?_⟩
    rw [hstem]
    exact List.mem_append.mpr (Or.inr (by decide))
  · intro pe files content m
    cases pe
    · simp [runProgram]
    · by_cases hjson : (files.filter globJson).length = 0
      · have hm : runMain files content = ⟨[], 0, some MainError.noInput⟩ := by
          unfold runMain
          rw [if_pos hjson]
        unfold runProgram
        simp [hm]
      · rw [runProgram_complete files content hjson]
        simp

theorem malformed_branch_unreachable_witness :
    (hasSuffix (pyStem (str "a.1.json")) (str ".1") = true ∧
      '.' ∈ pyStem (str "a.1.json")) ∧
    (hasSuffix (pyStem (str "b.2.json")) (str ".2") = true ∧
      '.' ∈ pyStem (str "b.2.json")) ∧
    (runProgram true [str "a.1.json"] (fun _ => emptyDoc)).error
      ≠ some (ProgError.fromMain (MainError.badName (str "a.1.json"))) :=
  ⟨malformed_branch_unreachable.1 (str "a.1.json") (by decide),
    malformed_branch_unreachable.2.1 (str "b.2.json") (by decide),
    malformed_branch_unreachable.2.2 true [str "a.1.json"]
      (fun _ => emptyDoc) (str "a.1.json")⟩

/-- C6: when zero `.json` files exist under the root the tool reports the
no-input error and terminates (exit status 1 from `sys.exit(message)`),
making no file change: nothing is written, and applying the run's writes
to any filesystem leaves every name untouched. -/
theorem no_input_error (files : List FName) (content : FName → StatsDoc)
    (h : files.filter globJson = []) :
    (runProgram true files content).error
        = some (ProgError.fromMain MainError.noInput) ∧
    (runProgram true files content).writes = [] ∧
    (runProgram true files content).exitCode = 1 ∧
    (∀ (fs : FName → Option StatsDoc) (n : FName),
      applyWrites fs (runProgram true files content).writes n = fs n) := by
  have hlen : (files.filter globJson).length = 0 := by
    rw [h]
    rfl
  have hm : runMain files content = ⟨[], 0, some MainError.noInput⟩ := by
    unfold runMain
    rw [if_pos hlen]
  have hr : runProgram true files content
      = ⟨1, some (ProgError.fromMain MainError.noInput), [], true, none⟩ := by
    unfold runProgram
    simp [hm]
  rw [hr]
  exact ⟨rfl, rfl, rfl, fun fs n => rfl⟩

theorem no_input_error_witness :
    (runProgram true [str "readme.txt"] (fun _ => emptyDoc)).error
        = some (ProgError.fromMain MainError.noInput) ∧
    (runProgram true [str "readme.txt"] (fun _ => emptyDoc)).writes = [] ∧
    (runProgram true [str "readme.txt"] (fun _ => emptyDoc)).exitCode = 1 ∧
    (∀ (fs : FName → Option StatsDoc) (n : FName),
      applyWrites fs (runProgram true [str "readme.txt"]
        (fun _ => emptyDoc)).writes n = fs n) :=
  no_input_error [str "readme.txt"] (fun _ => emptyDoc) (by decide)

/-- C5 is refuted in one respect: at a concrete missing-path run the
process exit status is 0 — the script uses a bare `exit()` — while the
claim requires a non-zero status. -/
theorem path_missing_counterexample :
    (runProgram false [str "a.1.json", str "a.2.json"]
      (fun _ => emptyDoc)).exitCode = 0 ∧
    (runProgram false [str "a.1.json", str "a.2.json"]
      (fun _ => emptyDoc)).error = some ProgError.pathNotFound :=
  ⟨rfl, rfl⟩

/-- C5 amended: when the supplied path does not exist the tool terminates
early with the path-not-found message, before any directory scan and
before writing any file — but with exit status 0 (bare `exit()`), not a
non-zero status. -/
theorem path_missing_early_exit (files : List FName)
    (content : FName → StatsDoc) :
    (runProgram false files content).error = some ProgError.pathNotFound ∧
    (runProgram false files content).scanned = false ∧
    (runProgram false files content).writes = [] ∧
    (runProgram false files content).exitCode = 0 :=
  ⟨rfl, rfl, rfl, rfl⟩

/-- C3 is refuted: a file named `1234.json` never matches the generation
glob patterns `*.1.json` / `*.2.json`, so with such a file under the root
the tool raises no malformed-filename error at all — the run completes
normally (exit status 0), ignoring the file and writing nothing. -/
theorem stray_json_counterexample :
    ([str "1234.json"].filter glob1 = [] ∧
      [str "1234.json"].filter glob2 = []) ∧
    (runProgram true [str "1234.json"] (fun _ => emptyDoc)).error = none ∧
    (runProgram true [str "1234.json"] (fun _ => emptyDoc)).writes = [] ∧
    (runProgram true [str "1234.json"] (fun _ => emptyDoc)).exitCode = 0 :=
  ⟨⟨rfl, rfl⟩, rfl, rfl, rfl⟩

/-- C3 amended: a file named `1234.json` (stem missing the generation
digit) is never among the generation-pattern matches of any file list, and
a run over a root holding exactly that file reports no error and writes no
output: the file is silently ignored rather than aborted on. -/
theorem stray_json_ignored (files : List FName)
    (content : FName → StatsDoc) :
    (files.filter glob1).count (str "1234.json") = 0 ∧
    (files.filter glob2).count (str "1234.json") = 0 ∧
    (runProgram true [str "1234.json"] content).error = none ∧
    (runProgram true [str "1234.json"] content).writes = [] := by
  refine ⟨?_, ?_, rfl, rfl⟩
  · apply List.count_eq_zero.mpr
    intro hm
    exact absurd (List.mem_filter.mp hm).2 (by decide)
  · apply List.count_eq_zero.mpr
    intro hm
    exact absurd (List.mem_filter.mp hm).2 (by decide)

/-- C8: the output files of a run are exactly one `{uuid}.json` write per
matched pair, holding the merged pair of documents — performed
unconditionally, so a pre-existing file of that name is replaced without
confirmation — and applying the run's writes to any filesystem leaves
every discovered generation file (any `*.1.json` / `*.2.json` name)
unchanged: none is deleted or modified. -/
theorem writes_one_per_pair (files : List FName)
    (content : FName → StatsDoc) :
    (runProgram true files content).writes = expectedWrites files content ∧
    (∀ n : FName, glob1 n = true ∨ glob2 n = true →
      ∀ fs : FName → Option StatsDoc,
        applyWrites fs (runProgram true files content).writes n = fs n) := by
  refine ⟨runProgram_writes files content, ?_⟩
  intro n hn fs
  apply applyWrites_notmem
  intro w hw
  rw [runProgram_writes files content] at hw
  obtain ⟨g1, g2, _, _, _, hweq⟩ := mem_expectedWrites hw
  subst hweq
  show uuidOf g1 ++ str ".json" ≠ n
  intro hfst
  rcases hn with h1 | h2
  · rw [← hfst, target_not_glob1 (uuid_no_dot g1)] at h1
    cases h1
  · rw [← hfst, target_not_glob2 (uuid_no_dot g1)] at h2
    cases h2

theorem writes_one_per_pair_witness :
    (runProgram true [str "a.1.json", str "a.2.json"]
        (fun _ => emptyDoc)).writes
      = expectedWrites [str "a.1.json", str "a.2.json"]
          (fun _ => emptyDoc) ∧
    (∀ fs : FName → Option StatsDoc,
      applyWrites fs (runProgram true [str "a.1.json", str "a.2.json"]
          (fun _ => emptyDoc)).writes (str "a.1.json")
        = fs (str "a.1.json")) :=
  ⟨(writes_one_per_pair [str "a.1.json", str "a.2.json"]
      (fun _ => emptyDoc)).1,
    fun fs => (writes_one_per_pair [str "a.1.json", str "a.2.json"]
      (fun _ => emptyDoc)).2 (str "a.1.json") (Or.inl (by decide)) fs⟩

/-- C4 is refuted: for the stem `a.b.1` the code extracts `a` — the prefix
before the FIRST dot of the stem, via `stem.index('.')` — not the spec's
`a.b` (the prefix before the generation digit); consequently the files
`a.b.1.json` and `a.c.2.json`, whose prefixes before the generation digit
differ (`a.b` vs `a.c`), are nevertheless paired and merged (one match is
counted and reported). -/
theorem pairing_counterexample :
    uuidOf (str "a.b.1.json") = str "a" ∧ ¬ str "a" = str "a.b" ∧
    (runProgram true [str "a.b.1.json", str "a.c.2.json"]
      (fun _ => emptyDoc)).matchesReported = some 1 :=
  ⟨by decide, by decide, by decide⟩

/-- C4 amended: the pairing key of a discovered generation file is the
stem's prefix preceding its FIRST `'.'` character (for a stem `a.b.1` the
key is `a`, not `a.b`; for a dot-free UUID the two notions coincide), and
a generation-1/generation-2 pair is merged — one output write appears —
exactly when these prefixes are equal under case-sensitive exact
comparison. -/
theorem pairing_by_first_dot (files : List FName)
    (content : FName → StatsDoc) (f1 f2 : FName)
    (h1 : f1 ∈ files.filter glob1) (h2 : f2 ∈ files.filter glob2) :
    parseGenFile f1 = Except.ok (uuidOf f1) ∧
    parseGenFile f2 = Except.ok (uuidOf f2) ∧
    (uuidOf f1 = uuidOf f2 →
      (uuidOf f1 ++ str ".json", mergeDocs (content f1) (content f2))
        ∈ (runProgram true files content).writes) ∧
    (∀ w ∈ (runProgram true files content).writes, ∃ g1 g2,
      g1 ∈ files.filter glob1 ∧ g2 ∈ files.filter glob2 ∧
      uuidOf g1 = uuidOf g2 ∧
      w = (uuidOf g1 ++ str ".json",
        mergeDocs (content g1) (content g2))) := by
  refine ⟨parseGenFile_gen (Or.inl (List.mem_filter.mp h1).2),
    parseGenFile_gen (Or.inr (List.mem_filter.mp h2).2), ?_, ?_⟩
  · intro hu
    rw [runProgram_writes]
    unfold expectedWrites
    apply List.mem_flatten.mpr
    refine ⟨_, List.mem_map.mpr ⟨f1, h1, rfl⟩, ?_⟩
    exact List.mem_map.mpr
      ⟨f2, List.mem_filter.mpr ⟨h2, by simp [hu]⟩, rfl⟩
  · intro w hw
    rw [runProgram_writes] at hw
    exact mem_expectedWrites hw

theorem pairing_by_first_dot_witness :
    parseGenFile (str "a.1.json")
        = Except.ok (uuidOf (str "a.1.json")) ∧
    parseGenFile (str "a.2.json")
        = Except.ok (uuidOf (str "a.2.json")) ∧
    (uuidOf (str "a.1.json") = uuidOf (str "a.2.json") →
      (uuidOf (str "a.1.json") ++ str ".json",
        mergeDocs ((fun _ => emptyDoc) (str "a.1.json"))
          ((fun _ => emptyDoc) (str "a.2.json")))
        ∈ (runProgram true [str "a.1.json", str "a.2.json"]
            (fun _ => emptyDoc)).writes) ∧
    (∀ w ∈ (runProgram true [str "a.1.json", str "a.2.json"]
        (fun _ => emptyDoc)).writes, ∃ g1 g2,
      g1 ∈ [str "a.1.json", str "a.2.json"].filter glob1 ∧
      g2 ∈ [str "a.1.json", str "a.2.json"].filter glob2 ∧
      uuidOf g1 = uuidOf g2 ∧
      w = (uuidOf g1 ++ str ".json",
        mergeDocs ((fun _ => emptyDoc) g1) ((fun _ => emptyDoc) g2))) :=
  pairing_by_first_dot [str "a.1.json", str "a.2.json"]
    (fun _ => emptyDoc) (str "a.1.json") (str "a.2.json")
    (by decide) (by decide)

/-- C9: an unmatched generation file of either kind — a generation-1 file
whose pairing key equals no generation-2 file's key, or vice versa a
generation-2 file whose key equals no generation-1 file's key — is
silently skipped: the run raises no error, writes no `{uuid}.json` output
for that key, and completes normally, reporting only the total match
count. -/
theorem unmatched_file_silent (files : List FName)
    (content : FName → StatsDoc) (f : FName)
    (h : (f ∈ files.filter glob1 ∧
          ∀ g ∈ files.filter glob2, uuidOf g ≠ uuidOf f) ∨
         (f ∈ files.filter glob2 ∧
          ∀ g ∈ files.filter glob1, uuidOf g ≠ uuidOf f)) :
    (runProgram true files content).error = none ∧
    (∀ w ∈ (runProgram true files content).writes,
      w.1 ≠ uuidOf f ++ str ".json") ∧
    (runProgram true files content).exitCode = 0 ∧
    (runProgram true files content).matchesReported
      = some (matchTotal files) := by
  have hjson : (files.filter globJson).length ≠ 0 := by
    have hmem : f ∈ files.filter globJson := by
      rcases h with ⟨h1, _⟩ | ⟨h2, _⟩
      · exact List.mem_filter.mpr ⟨(List.mem_filter.mp h1).1,
          glob1_globJson (List.mem_filter.mp h1).2⟩
      · exact List.mem_filter.mpr ⟨(List.mem_filter.mp h2).1,
          glob2_globJson (List.mem_filter.mp h2).2⟩
    intro h0
    rw [List.length_eq_zero.mp h0] at hmem
    cases hmem
  rw [runProgram_complete files content hjson]
  refine ⟨rfl, ?_, rfl, rfl⟩
  intro w hw
  obtain ⟨g1, g2, hg1, hg2, hu, hweq⟩ := mem_expectedWrites hw
  subst hweq
  show uuidOf g1 ++ str ".json" ≠ uuidOf f ++ str ".json"
  intro heq
  have hg1f : uuidOf g1 = uuidOf f := List.append_cancel_right heq
  rcases h with ⟨_, h2⟩ | ⟨_, h1⟩
  · exact h2 g2 hg2 (by rw [← hu, hg1f])
  · exact h1 g1 hg1 hg1f

theorem unmatched_file_silent_witness :
    ((runProgram true [str "a.1.json"] (fun _ => emptyDoc)).error = none ∧
      (∀ w ∈ (runProgram true [str "a.1.json"] (fun _ => emptyDoc)).writes,
        w.1 ≠ uuidOf (str "a.1.json") ++ str ".json") ∧
      (runProgram true [str "a.1.json"] (fun _ => emptyDoc)).exitCode = 0 ∧
      (runProgram true [str "a.1.json"]
        (fun _ => emptyDoc)).matchesReported
          = some (matchTotal [str "a.1.json"])) ∧
    ((runProgram true [str "b.2.json"] (fun _ => emptyDoc)).error = none ∧
      (∀ w ∈ (runProgram true [str "b.2.json"] (fun _ => emptyDoc)).writes,
        w.1 ≠ uuidOf (str "b.2.json") ++ str ".json") ∧
      (runProgram true [str "b.2.json"] (fun _ => emptyDoc)).exitCode = 0 ∧
      (runProgram true [str "b.2.json"]
        (fun _ => emptyDoc)).matchesReported
          = some (matchTotal [str "b.2.json"])) :=
  ⟨unmatched_file_silent [str "a.1.json"] (fun _ => emptyDoc)
      (str "a.1.json") (Or.inl ⟨by decide, by decide⟩),
    unmatched_file_silent [str "b.2.json"] (fun _ => emptyDoc)
      (str "b.2.json") (Or.inr ⟨by decide, by decide⟩)⟩
